import Mathlib

/-! The `convert` command of k6 (`cmd/convert.go`).

A shallow embedding of `convertCmd.RunE` and of the flag registration in `init`.

The command talks to collaborators whose code lives elsewhere (`filepath.Abs`,
`os.Open`, `har.Decode`, `(*os.File).Close`, `har.Convert`, `os.Create`,
`(*os.File).WriteString`, `(*os.File).Sync`).  Their outcomes are supplied by an
environment record `Env`; the body of `RunE` is translated statement by
statement and threads an explicit world (files by path, the two handles, a log
of the steps attempted).
-/

namespace Convert

/-- Go `error` values; `Option Err` is a Go `error`, `none` being `nil`. -/
abbrev Err := String

/-- Go strings and file contents: sequences of bytes. -/
abbrev Bytes := List UInt8

/-- The nine collaborator calls of `RunE`, in source order (lines 56 to 88). -/
inductive Step
  | abs
  | openIn
  | decode
  | closeIn
  | convert
  | create
  | write
  | sync
  | closeOut
  deriving DecidableEq, Repr

/-- The calls of `RunE` in the order in which the source text lists them. -/
def allSteps : List Step :=
  [.abs, .openIn, .decode, .closeIn, .convert, .create, .write, .sync, .closeOut]

/-- The package-level variables of lines 31 to 38, which the flags write to. -/
structure Flags where
  output : String
  enableChecks : Bool
  threshold : Nat
  only : List String
  skip : List String
  deriving DecidableEq, Repr

/-- Outcomes of the collaborators.  `Har` is the type of `har.Decode`'s result.
`writeString s = some (n, e)` is a failed `WriteString` that reports `n` bytes
written and the error `e`; `none` is a write of all of `s` without error. -/
structure Env (Har : Type) where
  abs : String → Except Err String
  openFile : String → Except Err Bytes
  decode : Bytes → Except Err Har
  closeIn : Option Err
  convert : Har → Bool → Nat → List String → List String → Except Err Bytes
  create : String → Option Err
  writeString : Bytes → Option (Nat × Err)
  sync : Option Err
  closeOut : Option Err

/-- What the command can observe or change: the files by path (`none`: no such
file), whether the handle `r` and the handle `f` are open, the steps attempted
so far with their outcome (oldest first), and the data handed to the file by
each write (oldest first). -/
structure World where
  files : String → Option Bytes
  inOpen : Bool
  outOpen : Bool
  trace : List (Step × Option Err)
  written : List Bytes

/-- The world before the command runs: no handle of the command is open. -/
def World.init (fs : String → Option Bytes) : World :=
  { files := fs, inOpen := false, outOpen := false, trace := [], written := [] }

/-- Record that step `s` was attempted and returned `r`. -/
def World.log (w : World) (s : Step) (r : Option Err) : World :=
  { w with trace := w.trace ++ [(s, r)] }

/-- Replace the content stored at path `p`. -/
def setFile (fs : String → Option Bytes) (p : String) (c : Option Bytes) :
    String → Option Bytes :=
  fun q => if q = p then c else fs q

/-- `os.Create(p)` succeeding: `O_RDWR|O_CREATE|O_TRUNC`, so the file exists
and is empty afterwards, and the handle `f` is open. -/
def World.created (w : World) (p : String) : World :=
  { w with files := setFile w.files p (some []), outOpen := true }

/-- Bytes `d` reach the file at path `p` through the handle `f`, whose offset
is at the end of what it wrote before. -/
def World.wrote (w : World) (p : String) (d : Bytes) : World :=
  { w with files := setFile w.files p (some ((w.files p).getD [] ++ d)),
           written := w.written ++ [d] }

/-- An execution: the current world and the worlds passed through before it
(most recent first). -/
structure Exec where
  cur : World
  past : List World

/-- The start of an execution on the file system `fs`. -/
def Exec.init (fs : String → Option Bytes) : Exec :=
  { cur := World.init fs, past := [] }

/-- One step of the command: the world changes by `f`. -/
def Exec.advance (x : Exec) (f : World → World) : Exec :=
  { cur := f x.cur, past := x.cur :: x.past }

/-- Every world the execution has been in, the current one first. -/
def Exec.points (x : Exec) : List World := x.cur :: x.past

/-- The body of `convertCmd.RunE` (lines 54 to 92); `arg0` is `args[0]`.
`(*os.File).Close` gives the descriptor back whether or not it reports an
error, so both outcomes of a close mark the handle as released. -/
def RunE {Har : Type} (env : Env Har) (fl : Flags) (arg0 : String) (x0 : Exec) :
    Option Err × Exec :=
  -- filePath, err := filepath.Abs(args[0])
  match env.abs arg0 with
  | .error e => (some e, x0.advance (fun w => w.log .abs (some e)))
  | .ok filePath =>
  let x1 := x0.advance (fun w => w.log .abs none)
  -- r, err := os.Open(filePath)
  match env.openFile filePath with
  | .error e => (some e, x1.advance (fun w => w.log .openIn (some e)))
  | .ok r =>
  let x2 := x1.advance (fun w => { w.log .openIn none with inOpen := true })
  -- h, err := har.Decode(r)
  match env.decode r with
  | .error e => (some e, x2.advance (fun w => w.log .decode (some e)))
  | .ok h =>
  let x3 := x2.advance (fun w => w.log .decode none)
  -- if err := r.Close(); err != nil
  match env.closeIn with
  | some e => (some e, x3.advance (fun w => { w.log .closeIn (some e) with inOpen := false }))
  | none =>
  let x4 := x3.advance (fun w => { w.log .closeIn none with inOpen := false })
  -- script, err := har.Convert(h, enableChecks, threshold, only, skip)
  match env.convert h fl.enableChecks fl.threshold fl.only fl.skip with
  | .error e => (some e, x4.advance (fun w => w.log .convert (some e)))
  | .ok script =>
  let x5 := x4.advance (fun w => w.log .convert none)
  -- f, err := os.Create(output)
  match env.create fl.output with
  | some e => (some e, x5.advance (fun w => w.log .create (some e)))
  | none =>
  let x6 := x5.advance (fun w => (w.log .create none).created fl.output)
  -- if _, err := f.WriteString(script); err != nil
  match env.writeString script with
  | some (n, e) =>
    (some e, x6.advance (fun w => (w.log .write (some e)).wrote fl.output (script.take n)))
  | none =>
  let x7 := x6.advance (fun w => (w.log .write none).wrote fl.output script)
  -- if err := f.Sync(); err != nil
  match env.sync with
  | some e => (some e, x7.advance (fun w => w.log .sync (some e)))
  | none =>
  let x8 := x7.advance (fun w => w.log .sync none)
  -- if err := f.Close(); err != nil
  match env.closeOut with
  | some e => (some e, x8.advance (fun w => { w.log .closeOut (some e) with outOpen := false }))
  | none =>
  (none, x8.advance (fun w => { w.log .closeOut none with outOpen := false }))

/-- An environment in which every collaborator succeeds: the archive is the
input's bytes and the script is the archive followed by the threshold. -/
def envOk : Env Bytes :=
  { abs := fun p => .ok ("/" ++ p)
    openFile := fun _ => .ok [1, 2]
    decode := fun b => .ok b
    closeIn := none
    convert := fun h _ t _ _ => .ok (h ++ [UInt8.ofNat t, 10, 11, 12, 13])
    create := fun _ => none
    writeString := fun _ => none
    sync := none
    closeOut := none }

/-- The flags of an invocation `k6 convert --batch-threshold 7 x.har`. -/
def flEx : Flags :=
  { output := "har-script.js", enableChecks := false, threshold := 7, only := [], skip := [] }

/-- A file system holding one earlier script at the default output path. -/
def fsOld : String → Option Bytes :=
  setFile (fun _ => none) "har-script.js" (some [9, 9, 9, 9, 9, 9, 9, 9])

/-- The command started on the file system `fs`. -/
def run {Har : Type} (env : Env Har) (fl : Flags) (arg0 : String)
    (fs : String → Option Bytes) : Option Err × Exec :=
  RunE env fl arg0 (Exec.init fs)

/-- As `envOk`, but the write stops after three bytes with an error. -/
def envShort : Env Bytes :=
  { envOk with writeString := fun _ => some (3, "no space left on device") }

/-- As `envOk`, but the input is not a HAR document and decoding fails. -/
def envBadHar : Env Bytes :=
  { envOk with decode := fun _ => .error "invalid character" }

/-- As `envOk`, but the conversion fails with an error that spells out the
configuration it was given (checks, threshold, lengths of the two lists). -/
def envNoConvert : Env Bytes :=
  { envOk with
    convert := fun _ c t o s =>
      .error ("convert: " ++ toString c.toNat ++ " " ++ toString t ++ " " ++
        toString o.length ++ " " ++ toString s.length) }

/-- As `envOk`, but flushing the output to disk fails. -/
def envBadSync : Env Bytes :=
  { envOk with sync := some "input/output error" }

/-! ## Flags (`init`, lines 95 to 103)

`init` registers five flags on the command: which variable each flag writes
to, its type and its default are in the source.  The flag and command
libraries themselves (the setters of each flag type, the parsing loop, the
dispatch to `RunE`) are not among the sources and are modelled: the library
stores each flag's default in the variable at registration and, when the flag
occurs on the command line, hands the text of its value to the setter of the
flag's type; the command body runs only if all flags parse and exactly one
positional argument is left (`cobra.ExactArgs(1)`). -/

/-- Modelled from the spec: the reading of an unsigned integer text, which is
library code not among the sources; the value of a digit byte as in Go's
`strconv.ParseUint`, for bases up to 36. -/
def digitVal (d : Char) : Option Nat :=
  if '0' ≤ d ∧ d ≤ '9' then some (d.toNat - '0'.toNat)
  else if 'a' ≤ d ∧ d ≤ 'z' then some (d.toNat - 'a'.toNat + 10)
  else if 'A' ≤ d ∧ d ≤ 'Z' then some (d.toNat - 'A'.toNat + 10)
  else none

/-- The largest `uint64`. -/
def maxUint64 : Nat := 2 ^ 64 - 1

/-- Modelled from the spec: the reading of an unsigned integer text, which is
library code not among the sources; the digit loop as in Go's
`strconv.ParseUint`: `n` is the value read so far, arithmetic is that of
`uint64`, a byte that is no digit of the base is a syntax error. -/
def parseDigits (base cutoff maxVal : Nat) : Nat → List Char → Except Err Nat
  | n, [] => .ok n
  | n, d :: ds =>
    match digitVal d with
    | none => .error "invalid syntax"
    | some v =>
      if v ≥ base then .error "invalid syntax"
      else if n ≥ cutoff then .error "value out of range"
      else
        let m := (n * base) % 2 ^ 64
        let n1 := (m + v) % 2 ^ 64
        if n1 < m ∨ n1 > maxVal then .error "value out of range"
        else parseDigits base cutoff maxVal n1 ds

/-- Modelled from the spec: the setter of a `uint` flag (line 101), which is
library code not among the sources.  Section 6 has the threshold a
non-negative integer and section 4.2 has a negative threshold rejected before
processing begins; the text is read as by Go's `strconv.ParseUint(s, 0, 64)`:
base taken from the text (`0x` hexadecimal, leading `0` octal, else decimal),
no sign accepted, result within 64 bits.  The text is given by its characters;
a character outside ASCII is no digit, as none of its bytes is. -/
def ParseUint (s : List Char) : Except Err Nat :=
  match s with
  | [] => .error "invalid syntax"
  | c0 :: rest =>
    if c0 = '0' ∧ (rest.head? = some 'x' ∨ rest.head? = some 'X') then
      if s.length < 3 then .error "invalid syntax"
      else parseDigits 16 (maxUint64 / 16 + 1) maxUint64 0 (s.drop 2)
    else if c0 = '0' then parseDigits 8 (maxUint64 / 8 + 1) maxUint64 0 (s.drop 1)
    else parseDigits 10 (maxUint64 / 10 + 1) maxUint64 0 s

/-- Modelled from the spec: the setter of a `bool` flag (line 102), which is
library code not among the sources; section 6 has the checks toggle a boolean,
read here as by Go's `strconv.ParseBool(s)`. -/
def ParseBool (s : String) : Except Err Bool :=
  if s = "1" ∨ s = "t" ∨ s = "T" ∨ s = "true" ∨ s = "TRUE" ∨ s = "True" then .ok true
  else if s = "0" ∨ s = "f" ∨ s = "F" ∨ s = "false" ∨ s = "FALSE" ∨ s = "False" then .ok false
  else .error "invalid syntax"

/-- One occurrence of a flag on the command line with the text of its value
(for the boolean flag written without a value the library supplies `true`). -/
inductive FlagArg
  | output (v : String)
  | only (v : String)
  | skip (v : String)
  | batchThreshold (v : String)
  | enableChecks (v : String)
  deriving DecidableEq, Repr

/-- A command-line argument after tokenisation: a flag or a positional. -/
inductive Arg
  | flag (a : FlagArg)
  | pos (s : String)
  deriving DecidableEq, Repr

/-- The flag variables together with the library's record of whether each
string-slice flag has been set before (a first occurrence replaces the
default, a later one appends). -/
structure FlagState where
  vals : Flags
  onlyChanged : Bool
  skipChanged : Bool
  deriving DecidableEq, Repr

/-- The values after `init`: line 31 for `output`, the defaults passed at
lines 99 to 102 for the others. -/
def FlagState.init : FlagState :=
  { vals := { output := "har-script.js", enableChecks := false, threshold := 500,
              only := [], skip := [] }
    onlyChanged := false
    skipChanged := false }

/-- The setter of the flag named by `a`, applied to its value: each flag
writes to the variable it is registered with at lines 98 to 102.  `csv` is the
library's splitting of a string-slice value at commas, a parameter. -/
def setFlag (csv : String → Except Err (List String)) (st : FlagState) :
    FlagArg → Except Err FlagState
  | .output v => .ok { st with vals := { st.vals with output := v } }
  | .only v =>
    match csv v with
    | .error e => .error e
    | .ok rv =>
      .ok { st with
        vals := { st.vals with only := if st.onlyChanged then st.vals.only ++ rv else rv }
        onlyChanged := true }
  | .skip v =>
    match csv v with
    | .error e => .error e
    | .ok rv =>
      .ok { st with
        vals := { st.vals with skip := if st.skipChanged then st.vals.skip ++ rv else rv }
        skipChanged := true }
  | .batchThreshold v =>
    match ParseUint v.data with
    | .error e => .error e
    | .ok n => .ok { st with vals := { st.vals with threshold := n } }
  | .enableChecks v =>
    match ParseBool v with
    | .error e => .error e
    | .ok b => .ok { st with vals := { st.vals with enableChecks := b } }

/-- Modelled from the spec: the flag library's parsing loop, which is not among
the sources (section 1 leaves argument parsing to the caller): the arguments
are taken left to right, flags are set, the positionals are collected in
order; the first setter error ends parsing. -/
def parseArgs (csv : String → Except Err (List String)) :
    FlagState → List String → List Arg → Except Err (FlagState × List String)
  | st, ps, [] => .ok (st, ps)
  | st, ps, .pos s :: rest => parseArgs csv st (ps ++ [s]) rest
  | st, ps, .flag a :: rest =>
    match setFlag csv st a with
    | .error e => .error e
    | .ok st1 => parseArgs csv st1 ps rest

/-- Modelled from the spec: the command library's dispatch, which is not among
the sources; malformed configuration is rejected before processing begins
(section 4.2).  Running `k6 convert` with arguments `argv`: flags are parsed,
the number of positionals is checked (`Args: cobra.ExactArgs(1)`, line 53),
then `RunE` runs. -/
def execute {Har : Type} (env : Env Har) (csv : String → Except Err (List String))
    (argv : List Arg) (fs : String → Option Bytes) : Option Err × Exec :=
  match parseArgs csv FlagState.init [] argv with
  | .error e => (some e, Exec.init fs)
  | .ok (st, ps) =>
    match ps with
    | [a] => RunE env st.vals a (Exec.init fs)
    | _ => (some "accepts 1 arg(s)", Exec.init fs)

/-- A splitting at commas for values without quotes. -/
def csvPlain (v : String) : Except Err (List String) := .ok (v.splitOn ",")

/-! ## The generator's grouping (`har.Convert`, package `converter/har`) -/

/-- Modelled from the spec: the `Entry` record of the `har` package, which is
not among the sources; section 3 gives it a start time (here in milliseconds),
a request with method and absolute URL (whose host is kept apart here) and a
response status. -/
structure Entry where
  start : Int
  host : String
  method : String
  url : String
  status : Nat
  deriving DecidableEq, Repr

/-- Modelled from the spec: the filter of `har.Convert` (section 4.2, step 1),
which is not among the sources: an entry is kept iff (the only-list is empty or
the host matches one of its domains) and (the skip-list is empty or the host
matches none of its domains).  The matching of a host against a domain is the
parameter `dm`. -/
def keepEntry (dm : String → String → Bool) (only skip : List String) (e : Entry) : Bool :=
  (only.isEmpty || only.any (fun d => dm e.host d)) &&
  (skip.isEmpty || !(skip.any (fun d => dm e.host d)))

/-- Modelled from the spec: the kept entries, in capture order. -/
def filterEntries (dm : String → String → Bool) (only skip : List String)
    (es : List Entry) : List Entry :=
  es.filter (keepEntry dm only skip)

/-- Modelled from the spec: a batch of the generated script (section 3) with
the pacing duration recorded when it was opened, to be rendered between the
batch before it and this one; the first batch has none. -/
structure Batch where
  gapBefore : Option Int
  members : List Entry
  deriving DecidableEq, Repr

/-- Modelled from the spec: the walk of section 4.2, step 2, after the first
entry.  `prev` is the immediately preceding kept entry, `cur` the current
batch and `gap` the pacing duration recorded when `cur` was opened. -/
def groupFrom (threshold : Nat) (prev : Entry) (gap : Option Int) (cur : List Entry) :
    List Entry → List Batch
  | [] => [{ gapBefore := gap, members := cur }]
  | e :: es =>
    if e.start - prev.start < (threshold : Int) then
      groupFrom threshold e gap (cur ++ [e]) es
    else
      { gapBefore := gap, members := cur } ::
        groupFrom threshold e (some (e.start - prev.start)) [e] es

/-- Modelled from the spec: grouping into batches (section 4.2, step 2), the
part of `har.Convert` that is not among the sources: a new batch starts at the
first entry, then the entries are walked once. -/
def group (threshold : Nat) : List Entry → List Batch
  | [] => []
  | e :: es => groupFrom threshold e none [e] es

/-- Modelled from the spec: the batches `har.Convert` renders for an archive's
entries under the command's flags. -/
def batchesOf (dm : String → String → Bool) (fl : Flags) (archive : List Entry) : List Batch :=
  group fl.threshold (filterEntries dm fl.only fl.skip archive)

/-- An entry of the example archives, on host `a.example.com`. -/
def entryAt (t : Int) : Entry :=
  { start := t, host := "a.example.com", method := "GET", url := "http://a.example.com/",
    status := 200 }

/-- A host matcher for the examples: the domain's characters end the host's. -/
def dmSuffix (host d : String) : Bool := d.data.isSuffixOf host.data

/-- The flags of the example scenario of section 8: threshold 500, no filters,
checks disabled. -/
def fl500 : Flags :=
  { output := "har-script.js", enableChecks := false, threshold := 500, only := [], skip := [] }

/-- The archive of the example scenario of section 8: entries at 0, 100 and
700 milliseconds. -/
def archive3 : List Entry := [entryAt 0, entryAt 100, entryAt 700]

/-! ## Helper lemmas -/

/-- `strconv.ParseUint` accepts no sign: a text that starts with `-` is a
syntax error. -/
theorem ParseUint_signed (s : List Char) (h : s.head? = some '-') :
    ∃ e, ParseUint s = .error e := by
  cases s with
  | nil => simp at h
  | cons c rest =>
    simp only [List.head?_cons, Option.some.injEq] at h
    subst h
    exact ⟨"invalid syntax", by simp [ParseUint, parseDigits, digitVal]⟩

/-- Flag parsing fails as soon as the arguments hold a flag whose setter fails
in every state. -/
theorem parseArgs_setter_error (csv : String → Except Err (List String)) (a : FlagArg)
    (herr : ∀ st, ∃ e, setFlag csv st a = .error e) :
    ∀ (argv : List Arg) (st : FlagState) (ps : List String), Arg.flag a ∈ argv →
      ∃ e, parseArgs csv st ps argv = .error e := by
  intro argv
  induction argv with
  | nil => intro st ps h; simp at h
  | cons x rest ih =>
    intro st ps h
    cases x with
    | pos s =>
      simp only [List.mem_cons, reduceCtorEq, false_or] at h
      simpa [parseArgs] using ih st (ps ++ [s]) h
    | flag b =>
      simp only [parseArgs]
      cases hb : setFlag csv st b with
      | error e => exact ⟨e, rfl⟩
      | ok st1 =>
        simp only [List.mem_cons, Arg.flag.injEq] at h
        rcases h with h | h
        · subst h
          obtain ⟨e, he⟩ := herr st
          rw [he] at hb; cases hb
        · exact ih st1 ps h

/-- The digit loop never returns more than `maxVal`. -/
theorem parseDigits_le (base cutoff maxVal : Nat) :
    ∀ (ds : List Char) (n m : Nat), n ≤ maxVal →
      parseDigits base cutoff maxVal n ds = .ok m → m ≤ maxVal := by
  intro ds
  induction ds with
  | nil => intro n m hn h; simp [parseDigits] at h; omega
  | cons d ds ih =>
    intro n m hn h
    simp only [parseDigits] at h
    split at h
    · cases h
    · split at h
      · cases h
      · split at h
        · cases h
        · split at h
          · cases h
          · exact ih _ m (by omega) h

/-- A value accepted by `ParseUint` fits in 64 bits. -/
theorem ParseUint_le (s : List Char) (m : Nat) (h : ParseUint s = .ok m) : m ≤ maxUint64 := by
  unfold ParseUint at h
  split at h
  · cases h
  · split at h
    · split at h
      · cases h
      · exact parseDigits_le _ _ _ _ 0 m (Nat.zero_le _) h
    · split at h
      · exact parseDigits_le _ _ _ _ 0 m (Nat.zero_le _) h
      · exact parseDigits_le _ _ _ _ 0 m (Nat.zero_le _) h

/-- A setter keeps the threshold within 64 bits. -/
theorem setFlag_threshold_le (csv : String → Except Err (List String)) (st st1 : FlagState)
    (a : FlagArg) (hst : st.vals.threshold ≤ maxUint64) (h : setFlag csv st a = .ok st1) :
    st1.vals.threshold ≤ maxUint64 := by
  cases a with
  | output v => simp [setFlag] at h; subst h; exact hst
  | only v =>
    simp only [setFlag] at h
    split at h
    · cases h
    · simp at h; subst h; exact hst
  | skip v =>
    simp only [setFlag] at h
    split at h
    · cases h
    · simp at h; subst h; exact hst
  | batchThreshold v =>
    simp only [setFlag] at h
    split at h
    · cases h
    · rename_i n hn
      simp at h; subst h; exact ParseUint_le _ _ hn
  | enableChecks v =>
    simp only [setFlag] at h
    split at h
    · cases h
    · simp at h; subst h; exact hst

/-- Flag parsing keeps the threshold within 64 bits. -/
theorem parseArgs_threshold_le (csv : String → Except Err (List String)) :
    ∀ (argv : List Arg) (st st1 : FlagState) (ps ps1 : List String),
      st.vals.threshold ≤ maxUint64 → parseArgs csv st ps argv = .ok (st1, ps1) →
      st1.vals.threshold ≤ maxUint64 := by
  intro argv
  induction argv with
  | nil => intro st st1 ps ps1 hst h; simp [parseArgs] at h; rw [← h.1]; exact hst
  | cons x rest ih =>
    intro st st1 ps ps1 hst h
    cases x with
    | pos s => exact ih st st1 _ ps1 hst (by simpa [parseArgs] using h)
    | flag b =>
      simp only [parseArgs] at h
      split at h
      · cases h
      · rename_i st2 h2
        exact ih st2 st1 ps ps1 (setFlag_threshold_le csv st st2 b hst h2) h

/-- The walk from a current batch `cur` that ends in `prev` and whose
consecutive members are closer than the threshold: the batches it yields
concatenate to `cur` followed by the remaining entries, each is non-empty with
consecutive members closer than the threshold, each boundary has a gap of at
least the threshold which is the recorded pacing duration, and the first batch
starts with `cur` and carries `gap`. -/
theorem groupFrom_spec (t : Nat) :
    ∀ (es : List Entry) (prev : Entry) (gap : Option Int) (cur : List Entry),
      cur.getLast? = some prev →
      List.Chain' (fun a c : Entry => c.start - a.start < (t : Int)) cur →
      ((groupFrom t prev gap cur es).map Batch.members).flatten = cur ++ es ∧
      (∀ b ∈ groupFrom t prev gap cur es, b.members ≠ [] ∧
        List.Chain' (fun a c : Entry => c.start - a.start < (t : Int)) b.members) ∧
      List.Chain' (fun a b : Batch => ∃ x y, a.members.getLast? = some x ∧
        b.members.head? = some y ∧ (t : Int) ≤ y.start - x.start ∧
        b.gapBefore = some (y.start - x.start)) (groupFrom t prev gap cur es) ∧
      ∃ b rest, groupFrom t prev gap cur es = b :: rest ∧ b.gapBefore = gap ∧
        b.members.head? = cur.head? := by
  intro es
  induction es with
  | nil =>
    intro prev gap cur hlast hch
    have hne : cur ≠ [] := by rintro rfl; simp at hlast
    simp [groupFrom, hne, hch]
  | cons e es ih =>
    intro prev gap cur hlast hch
    have hne : cur ≠ [] := by rintro rfl; simp at hlast
    by_cases hd : e.start - prev.start < (t : Int)
    · have hch2 : List.Chain' (fun a c : Entry => c.start - a.start < (t : Int))
          (cur ++ [e]) := by
        rw [List.chain'_append]
        refine ⟨hch, List.chain'_singleton _, ?_⟩
        intro x hx y hy
        rw [hlast] at hx
        simp at hx hy
        subst hx; subst hy
        exact hd
      obtain ⟨h1, h2, h3, b, rest, h4, h5, h6⟩ :=
        ih e gap (cur ++ [e]) (List.getLast?_concat cur) hch2
      simp only [groupFrom, hd, if_true]
      refine ⟨by simp [h1], h2, h3, b, rest, h4, h5, ?_⟩
      rw [h6]
      cases cur with
      | nil => exact absurd rfl hne
      | cons c cs => rfl
    · obtain ⟨h1, h2, h3, b, rest, h4, h5, h6⟩ :=
        ih e (some (e.start - prev.start)) [e] rfl (List.chain'_singleton _)
      simp only [groupFrom, hd, if_false]
      refine ⟨by simp [h1], ?_, ?_, _, _, rfl, rfl, rfl⟩
      · intro b0 hb0
        rcases List.mem_cons.1 hb0 with h | h
        · subst h; exact ⟨hne, hch⟩
        · exact h2 b0 h
      · rw [h4, List.chain'_cons]
        refine ⟨⟨prev, e, hlast, by simpa using h6, by omega, h5⟩, ?_⟩
        rw [← h4]; exact h3

/-! ## The claims -/

/-- C1: when all nine steps succeed, the command returns no error, the file at
the output path holds exactly the script `har.Convert` returned for the decoded
archive and the flag values `enableChecks`, `threshold`, `only`, `skip` in that
order, the script is the only data written, and no other path is changed. -/
theorem RunE_writes_script {Har : Type} (env : Env Har) (fl : Flags) (arg0 : String)
    (fs : String → Option Bytes) (p : String) (r : Bytes) (h : Har) (s : Bytes)
    (habs : env.abs arg0 = .ok p) (hopen : env.openFile p = .ok r)
    (hdec : env.decode r = .ok h) (hcl : env.closeIn = none)
    (hconv : env.convert h fl.enableChecks fl.threshold fl.only fl.skip = .ok s)
    (hcr : env.create fl.output = none) (hwr : env.writeString s = none)
    (hsync : env.sync = none) (hclo : env.closeOut = none) :
    (run env fl arg0 fs).1 = none ∧
    (run env fl arg0 fs).2.cur.files fl.output = some s ∧
    (run env fl arg0 fs).2.cur.written = [s] ∧
    (∀ q, q ≠ fl.output → (run env fl arg0 fs).2.cur.files q = fs q) := by
  simp [run, RunE, habs, hopen, hdec, hcl, hconv, hcr, hwr, hsync, hclo, Exec.advance,
    Exec.init, World.init, World.log, World.created, World.wrote, setFile]
  intro q hq; simp [hq]

/-- C1 at the all-succeeding environment: the old script is replaced by the new
one. -/
theorem RunE_writes_script_witness :
    envOk.convert [1, 2] flEx.enableChecks flEx.threshold flEx.only flEx.skip
      = .ok [1, 2, 7, 10, 11, 12, 13] ∧
    (run envOk flEx "x.har" fsOld).1 = none ∧
    (run envOk flEx "x.har" fsOld).2.cur.files flEx.output = some [1, 2, 7, 10, 11, 12, 13] ∧
    (run envOk flEx "x.har" fsOld).2.cur.written = [[1, 2, 7, 10, 11, 12, 13]] :=
  ⟨rfl,
   (RunE_writes_script envOk flEx "x.har" fsOld "/x.har" [1, 2] [1, 2]
      [1, 2, 7, 10, 11, 12, 13] rfl rfl rfl rfl rfl rfl rfl rfl rfl).1,
   (RunE_writes_script envOk flEx "x.har" fsOld "/x.har" [1, 2] [1, 2]
      [1, 2, 7, 10, 11, 12, 13] rfl rfl rfl rfl rfl rfl rfl rfl rfl).2.1,
   (RunE_writes_script envOk flEx "x.har" fsOld "/x.har" [1, 2] [1, 2]
      [1, 2, 7, 10, 11, 12, 13] rfl rfl rfl rfl rfl rfl rfl rfl rfl).2.2.1⟩

/-- C2: when path resolution, opening, decoding, closing the input or the
conversion fails (the five do not all succeed), the command returns an error
and at every point of the run the files are as before, the output handle was
never opened, nothing was written and `os.Create` was not attempted. -/
theorem RunE_early_failure_keeps_files {Har : Type} (env : Env Har) (fl : Flags)
    (arg0 : String) (fs : String → Option Bytes)
    (hfail : ∀ p r h s, env.abs arg0 = .ok p → env.openFile p = .ok r →
      env.decode r = .ok h → env.closeIn = none →
      env.convert h fl.enableChecks fl.threshold fl.only fl.skip ≠ .ok s) :
    (run env fl arg0 fs).1 ≠ none ∧
    (∀ w ∈ (run env fl arg0 fs).2.points,
      w.files = fs ∧ w.outOpen = false ∧ w.written = [] ∧
      Step.create ∉ w.trace.map Prod.fst) := by
  unfold run RunE
  split
  · simp [Exec.advance, Exec.init, World.init, World.log, Exec.points]
  split
  · simp [Exec.advance, Exec.init, World.init, World.log, Exec.points]
  split
  · simp [Exec.advance, Exec.init, World.init, World.log, Exec.points]
  split
  · simp [Exec.advance, Exec.init, World.init, World.log, Exec.points]
  split
  · simp [Exec.advance, Exec.init, World.init, World.log, Exec.points]
  · rename_i h1 _ _ h2 _ _ h3 _ h4 _ _ h5
    exact absurd h5 (hfail _ _ _ _ h1 h2 h3 h4)

/-- C2 at an input that is not a HAR document: the error is returned and the
earlier script is still in place. -/
theorem RunE_early_failure_keeps_files_witness :
    envBadHar.decode [1, 2] = .error "invalid character" ∧
    (run envBadHar flEx "x.har" fsOld).1 ≠ none ∧
    (∀ w ∈ (run envBadHar flEx "x.har" fsOld).2.points,
      w.files = fsOld ∧ w.outOpen = false ∧ w.written = [] ∧
      Step.create ∉ w.trace.map Prod.fst) :=
  ⟨rfl, RunE_early_failure_keeps_files envBadHar flEx "x.har" fsOld (by
    intro p r h s h1 h2 h3
    simp [envBadHar] at h3)⟩

/-- C3 as stated fails: when the write stops after three of seven bytes, the
command returns the write error and the output path holds the three bytes,
which is neither the earlier content nor the complete script. -/
theorem short_write_left_behind :
    (run envShort flEx "x.har" fsOld).1 = some "no space left on device" ∧
    envShort.convert [1, 2] flEx.enableChecks flEx.threshold flEx.only flEx.skip
      = .ok [1, 2, 7, 10, 11, 12, 13] ∧
    (run envShort flEx "x.har" fsOld).2.cur.files flEx.output = some [1, 2, 7] ∧
    (run envShort flEx "x.har" fsOld).2.cur.files flEx.output ≠ fsOld flEx.output ∧
    (run envShort flEx "x.har" fsOld).2.cur.files flEx.output
      ≠ some [1, 2, 7, 10, 11, 12, 13] :=
  ⟨by decide, rfl, by decide, by decide, by decide⟩

/-- C3 amended: no path other than the output path is changed.  If one of
path resolution, open, decode, input close, convert and create fails, every
file is as before the run.  If all six succeed, the earlier content of the
output path is gone: the path holds the complete script when the write
succeeds (whether or not sync and close then fail), and when the write fails
reporting `n` bytes written the command returns the write error and the path
holds the first `n` bytes of the script. -/
theorem output_holds_script_start {Har : Type} (env : Env Har) (fl : Flags) (arg0 : String)
    (fs : String → Option Bytes) :
    (∀ q, q ≠ fl.output → (run env fl arg0 fs).2.cur.files q = fs q) ∧
    ((∀ p r h s, env.abs arg0 = .ok p → env.openFile p = .ok r → env.decode r = .ok h →
        env.closeIn = none →
        env.convert h fl.enableChecks fl.threshold fl.only fl.skip = .ok s →
        env.create fl.output ≠ none) →
      (run env fl arg0 fs).1 ≠ none ∧ (run env fl arg0 fs).2.cur.files = fs) ∧
    (∀ p r h s, env.abs arg0 = .ok p → env.openFile p = .ok r → env.decode r = .ok h →
        env.closeIn = none →
        env.convert h fl.enableChecks fl.threshold fl.only fl.skip = .ok s →
        env.create fl.output = none →
      (env.writeString s = none →
        (run env fl arg0 fs).2.cur.files fl.output = some s) ∧
      (∀ n e, env.writeString s = some (n, e) →
        (run env fl arg0 fs).1 = some e ∧
        (run env fl arg0 fs).2.cur.files fl.output = some (s.take n))) := by
  unfold run RunE
  repeat' split
  all_goals simp_all [Exec.points, Exec.advance, Exec.init, World.init, World.log,
    World.created, World.wrote, setFile]
  all_goals (intros; subst_vars; simp_all)

/-- C3 amended, at a write that stops after three bytes and at a failing sync:
the output path holds the first three bytes of the script, respectively the
complete script, and the earlier content is gone in both runs. -/
theorem output_holds_script_start_witness :
    fsOld flEx.output = some [9, 9, 9, 9, 9, 9, 9, 9] ∧
    ((run envShort flEx "x.har" fsOld).1 = some "no space left on device" ∧
      (run envShort flEx "x.har" fsOld).2.cur.files flEx.output
        = some (([1, 2, 7, 10, 11, 12, 13] : Bytes).take 3)) ∧
    (run envBadSync flEx "x.har" fsOld).2.cur.files flEx.output
      = some [1, 2, 7, 10, 11, 12, 13] :=
  ⟨by decide,
   ((output_holds_script_start envShort flEx "x.har" fsOld).2.2 "/x.har" [1, 2] [1, 2]
      [1, 2, 7, 10, 11, 12, 13] rfl rfl rfl rfl rfl rfl).2 3 "no space left on device" rfl,
   ((output_holds_script_start envBadSync flEx "x.har" fsOld).2.2 "/x.har" [1, 2] [1, 2]
      [1, 2, 7, 10, 11, 12, 13] rfl rfl rfl rfl rfl rfl).1 rfl⟩

/-- C4 fails on the code: when `har.Decode` returns an error the command
returns it at line 66 without reaching `r.Close()`, so the input handle is
still open when the command returns. -/
theorem decode_error_leaves_input_open :
    (run envBadHar flEx "x.har" fsOld).1 = some "invalid character" ∧
    (run envBadHar flEx "x.har" fsOld).2.cur.inOpen = true ∧
    (run envBadHar flEx "x.har" fsOld).2.cur.trace
      = [(Step.abs, none), (Step.openIn, none), (Step.decode, some "invalid character")] :=
  ⟨by decide, by decide, by decide⟩

/-- C5 fails on the code: when the write or the sync returns an error the
command returns it at line 83 or 86 without reaching `f.Close()`, so the
output handle is still open when the command returns. -/
theorem write_error_leaves_output_open :
    (run envShort flEx "x.har" fsOld).1 = some "no space left on device" ∧
    (run envShort flEx "x.har" fsOld).2.cur.outOpen = true ∧
    (run envBadSync flEx "x.har" fsOld).1 = some "input/output error" ∧
    (run envBadSync flEx "x.har" fsOld).2.cur.outOpen = true :=
  ⟨by decide, by decide, by decide, by decide⟩

/-- C6: the steps attempted are an initial segment of the nine steps in source
order, none twice; every step but the last attempted one succeeded; the result
is the outcome of the last attempted step; the result is `nil` exactly when
all nine steps were attempted and succeeded, which is when all nine
collaborators succeed.  Step by step: whichever collaborator is the first to
return an error `e`, the steps before it having succeeded, the result is that
very `e` and the attempted steps are those up to and including the failing
one, each once; when none fails the result is `nil` and all nine steps were
attempted. -/
theorem RunE_first_error {Har : Type} (env : Env Har) (fl : Flags) (arg0 : String)
    (fs : String → Option Bytes) :
    (run env fl arg0 fs).2.cur.trace.map Prod.fst <+: allSteps ∧
    ((run env fl arg0 fs).2.cur.trace.map Prod.fst).Nodup ∧
    (∀ ev ∈ (run env fl arg0 fs).2.cur.trace.dropLast, ev.2 = none) ∧
    (run env fl arg0 fs).1 = (run env fl arg0 fs).2.cur.trace.getLast?.bind Prod.snd ∧
    ((run env fl arg0 fs).1 = none ↔
      (run env fl arg0 fs).2.cur.trace = allSteps.map (fun s => (s, none))) ∧
    ((run env fl arg0 fs).1 = none ↔
      ∃ p r h s, env.abs arg0 = .ok p ∧ env.openFile p = .ok r ∧ env.decode r = .ok h ∧
        env.closeIn = none ∧
        env.convert h fl.enableChecks fl.threshold fl.only fl.skip = .ok s ∧
        env.create fl.output = none ∧ env.writeString s = none ∧ env.sync = none ∧
        env.closeOut = none) ∧
    (∀ e, env.abs arg0 = .error e →
      (run env fl arg0 fs).1 = some e ∧
      (run env fl arg0 fs).2.cur.trace = [(.abs, some e)]) ∧
    (∀ p, env.abs arg0 = .ok p →
      (∀ e, env.openFile p = .error e →
        (run env fl arg0 fs).1 = some e ∧
        (run env fl arg0 fs).2.cur.trace = [(.abs, none), (.openIn, some e)]) ∧
      (∀ r, env.openFile p = .ok r →
        (∀ e, env.decode r = .error e →
          (run env fl arg0 fs).1 = some e ∧
          (run env fl arg0 fs).2.cur.trace
            = [(.abs, none), (.openIn, none), (.decode, some e)]) ∧
        (∀ h, env.decode r = .ok h →
          (∀ e, env.closeIn = some e →
            (run env fl arg0 fs).1 = some e ∧
            (run env fl arg0 fs).2.cur.trace
              = [(.abs, none), (.openIn, none), (.decode, none), (.closeIn, some e)]) ∧
          (env.closeIn = none →
            (∀ e, env.convert h fl.enableChecks fl.threshold fl.only fl.skip = .error e →
              (run env fl arg0 fs).1 = some e ∧
              (run env fl arg0 fs).2.cur.trace
                = [(.abs, none), (.openIn, none), (.decode, none), (.closeIn, none),
                   (.convert, some e)]) ∧
            (∀ s, env.convert h fl.enableChecks fl.threshold fl.only fl.skip = .ok s →
              (∀ e, env.create fl.output = some e →
                (run env fl arg0 fs).1 = some e ∧
                (run env fl arg0 fs).2.cur.trace
                  = [(.abs, none), (.openIn, none), (.decode, none), (.closeIn, none),
                     (.convert, none), (.create, some e)]) ∧
              (env.create fl.output = none →
                (∀ n e, env.writeString s = some (n, e) →
                  (run env fl arg0 fs).1 = some e ∧
                  (run env fl arg0 fs).2.cur.trace
                    = [(.abs, none), (.openIn, none), (.decode, none), (.closeIn, none),
                       (.convert, none), (.create, none), (.write, some e)]) ∧
                (env.writeString s = none →
                  (∀ e, env.sync = some e →
                    (run env fl arg0 fs).1 = some e ∧
                    (run env fl arg0 fs).2.cur.trace
                      = [(.abs, none), (.openIn, none), (.decode, none), (.closeIn, none),
                         (.convert, none), (.create, none), (.write, none),
                         (.sync, some e)]) ∧
                  (env.sync = none →
                    (∀ e, env.closeOut = some e →
                      (run env fl arg0 fs).1 = some e ∧
                      (run env fl arg0 fs).2.cur.trace
                        = [(.abs, none), (.openIn, none), (.decode, none), (.closeIn, none),
                           (.convert, none), (.create, none), (.write, none), (.sync, none),
                           (.closeOut, some e)]) ∧
                    (env.closeOut = none →
                      (run env fl arg0 fs).1 = none ∧
                      (run env fl arg0 fs).2.cur.trace
                        = allSteps.map (fun st => (st, none))))))))))) := by
  unfold run RunE
  repeat' split
  all_goals simp_all [Exec.advance, Exec.init, World.init, World.log, World.created,
    World.wrote, allSteps]

/-- C6 at a failing sync: the result is the error the sync returned, the eight
steps up to the sync were attempted, and the first seven succeeded. -/
theorem RunE_first_error_witness :
    envBadSync.sync = some "input/output error" ∧
    ((run envBadSync flEx "x.har" fsOld).1 = some "input/output error" ∧
      (run envBadSync flEx "x.har" fsOld).2.cur.trace
        = [(.abs, none), (.openIn, none), (.decode, none), (.closeIn, none),
           (.convert, none), (.create, none), (.write, none),
           (.sync, some "input/output error")]) ∧
    (∀ ev ∈ (run envBadSync flEx "x.har" fsOld).2.cur.trace.dropLast, ev.2 = none) :=
  ⟨rfl,
   ((((((((RunE_first_error envBadSync flEx "x.har" fsOld).2.2.2.2.2.2.2 "/x.har" rfl).2
      [1, 2] rfl).2 [1, 2] rfl).2 rfl).2 [1, 2, 7, 10, 11, 12, 13] rfl).2 rfl).2 rfl).1
      "input/output error" rfl,
   (RunE_first_error envBadSync flEx "x.har" fsOld).2.2.1⟩

/-- C7: a `--batch-threshold` value that starts with a minus sign, as every
text denoting a negative integer does, makes flag parsing fail: the command
returns an error and its body does not run (no step is attempted, no handle is
opened, the files are as before).  A threshold that flag parsing lets through
is a natural number below `2 ^ 64`. -/
theorem negative_threshold_rejected {Har : Type} (env : Env Har)
    (csv : String → Except Err (List String)) (argv : List Arg)
    (fs : String → Option Bytes) (v : String)
    (hin : Arg.flag (.batchThreshold v) ∈ argv) (hneg : v.data.head? = some '-') :
    (∃ e, (execute env csv argv fs).1 = some e) ∧
    (execute env csv argv fs).2 = Exec.init fs ∧
    (∀ (argv1 : List Arg) (st : FlagState) (ps : List String),
      parseArgs csv FlagState.init [] argv1 = .ok (st, ps) →
        (0 : Int) ≤ (st.vals.threshold : Int) ∧ st.vals.threshold < 2 ^ 64) := by
  have herr : ∀ st, ∃ e, setFlag csv st (.batchThreshold v) = .error e := by
    intro st
    obtain ⟨e, he⟩ := ParseUint_signed v.data hneg
    exact ⟨e, by simp [setFlag, he]⟩
  obtain ⟨e, he⟩ := parseArgs_setter_error csv _ herr argv FlagState.init [] hin
  refine ⟨⟨e, by simp [execute, he]⟩, by simp [execute, he], ?_⟩
  intro argv1 st ps h
  have := parseArgs_threshold_le csv argv1 FlagState.init st [] ps (by decide) h
  refine ⟨Int.natCast_nonneg _, ?_⟩
  have h2 : maxUint64 < 2 ^ 64 := by decide
  omega

/-- C7 at `k6 convert --batch-threshold -7 x.har`. -/
theorem negative_threshold_rejected_witness :
    "-7".data.head? = some '-' ∧
    (∃ e, (execute envOk csvPlain [.flag (.batchThreshold "-7"), .pos "x.har"] fsOld).1
      = some e) ∧
    (execute envOk csvPlain [.flag (.batchThreshold "-7"), .pos "x.har"] fsOld).2
      = Exec.init fsOld :=
  ⟨by decide,
   (negative_threshold_rejected envOk csvPlain [.flag (.batchThreshold "-7"), .pos "x.har"]
      fsOld "-7" (by decide) (by decide)).1,
   (negative_threshold_rejected envOk csvPlain [.flag (.batchThreshold "-7"), .pos "x.har"]
      fsOld "-7" (by decide) (by decide)).2.1⟩

/-- C8: without flags the configuration is output `har-script.js`, checks off,
threshold 500 and empty only and skip lists; a single flag whose value parses
replaces its own variable and leaves the other four at those defaults.  In
each of these invocations the command runs `RunE` with that configuration,
and once the input has been read and closed it is that configuration that is
handed on: an error of `har.Convert` on the archive and exactly these values
of `enableChecks`, `threshold`, `only`, `skip` is the command's result, an
error of `os.Create` on exactly this output name is the command's result, and
a script written without error is the content stored under this name. -/
theorem flag_defaults {Har : Type} (env : Env Har) (csv : String → Except Err (List String))
    (p : String) (fs : String → Option Bytes) (argv : List Arg) (fl : Flags)
    (hcase :
      (argv = [.pos p] ∧ fl = ⟨"har-script.js", false, 500, [], []⟩) ∨
      (∃ v, argv = [.flag (.output v), .pos p] ∧ fl = ⟨v, false, 500, [], []⟩) ∨
      (∃ v l, csv v = .ok l ∧ argv = [.flag (.only v), .pos p] ∧
        fl = ⟨"har-script.js", false, 500, l, []⟩) ∨
      (∃ v l, csv v = .ok l ∧ argv = [.flag (.skip v), .pos p] ∧
        fl = ⟨"har-script.js", false, 500, [], l⟩) ∨
      (∃ v n, ParseUint v.data = .ok n ∧ argv = [.flag (.batchThreshold v), .pos p] ∧
        fl = ⟨"har-script.js", false, n, [], []⟩) ∨
      (∃ v b, ParseBool v = .ok b ∧ argv = [.flag (.enableChecks v), .pos p] ∧
        fl = ⟨"har-script.js", b, 500, [], []⟩)) :
    execute env csv argv fs = RunE env fl p (Exec.init fs) ∧
    (∀ q r h, env.abs p = .ok q → env.openFile q = .ok r → env.decode r = .ok h →
      env.closeIn = none →
      (∀ e, env.convert h fl.enableChecks fl.threshold fl.only fl.skip = .error e →
        (execute env csv argv fs).1 = some e) ∧
      (∀ s, env.convert h fl.enableChecks fl.threshold fl.only fl.skip = .ok s →
        (∀ e, env.create fl.output = some e → (execute env csv argv fs).1 = some e) ∧
        (env.create fl.output = none → env.writeString s = none →
          (execute env csv argv fs).2.cur.files fl.output = some s ∧
          (execute env csv argv fs).2.cur.written = [s]))) := by
  have heq : execute env csv argv fs = RunE env fl p (Exec.init fs) := by
    rcases hcase with ⟨rfl, rfl⟩ | ⟨v, rfl, rfl⟩ | ⟨v, l, h, rfl, rfl⟩ | ⟨v, l, h, rfl, rfl⟩ |
      ⟨v, n, h, rfl, rfl⟩ | ⟨v, b, h, rfl, rfl⟩
    · rfl
    · rfl
    · simp [execute, parseArgs, setFlag, h, FlagState.init]
    · simp [execute, parseArgs, setFlag, h, FlagState.init]
    · simp [execute, parseArgs, setFlag, h, FlagState.init]
    · simp [execute, parseArgs, setFlag, h, FlagState.init]
  refine ⟨heq, ?_⟩
  intro q r h habs hopen hdec hcl
  rw [heq]
  refine ⟨?_, ?_⟩
  · intro e he
    simp [RunE, habs, hopen, hdec, hcl, he]
  · intro s hs
    refine ⟨?_, ?_⟩
    · intro e he
      simp [RunE, habs, hopen, hdec, hcl, hs, he]
    · intro hc hw
      unfold RunE
      simp only [habs, hopen, hdec, hcl, hs, hc, hw]
      repeat' split
      all_goals simp [Exec.advance, Exec.init, World.init, World.log, World.created,
        World.wrote, setFile]

/-- C8 at `k6 convert x.har` where the conversion fails: the error is the one
`har.Convert` returns for checks off, threshold 500 and empty lists. -/
theorem flag_defaults_witness :
    envNoConvert.convert [1, 2] false 500 [] [] = .error "convert: 0 500 0 0" ∧
    execute envNoConvert csvPlain [.pos "x.har"] fsOld
      = RunE envNoConvert ⟨"har-script.js", false, 500, [], []⟩ "x.har" (Exec.init fsOld) ∧
    (execute envNoConvert csvPlain [.pos "x.har"] fsOld).1 = some "convert: 0 500 0 0" :=
  ⟨rfl,
   (flag_defaults envNoConvert csvPlain "x.har" fsOld [.pos "x.har"]
      ⟨"har-script.js", false, 500, [], []⟩ (Or.inl ⟨rfl, rfl⟩)).1,
   ((flag_defaults envNoConvert csvPlain "x.har" fsOld [.pos "x.har"]
      ⟨"har-script.js", false, 500, [], []⟩ (Or.inl ⟨rfl, rfl⟩)).2 "/x.har" [1, 2] [1, 2]
      rfl rfl rfl rfl).1 "convert: 0 500 0 0" rfl⟩

/-- C9: for every archive and all flag values, the batches concatenate to the
filtered entries in capture order (none dropped, duplicated or reordered);
every batch is non-empty and consecutive members of a batch start less than
the threshold apart; between consecutive batches the first member of the later
one starts at least the threshold after the last member of the earlier one,
and that difference is the pacing duration recorded between them; the first
batch has no pacing duration before it. -/
theorem batches_partition (dm : String → String → Bool) (fl : Flags)
    (archive : List Entry) :
    ((batchesOf dm fl archive).map Batch.members).flatten
      = archive.filter (keepEntry dm fl.only fl.skip) ∧
    (∀ b ∈ batchesOf dm fl archive, b.members ≠ [] ∧
      List.Chain' (fun a c : Entry => c.start - a.start < (fl.threshold : Int)) b.members) ∧
    List.Chain' (fun a b : Batch => ∃ x y, a.members.getLast? = some x ∧
        b.members.head? = some y ∧ (fl.threshold : Int) ≤ y.start - x.start ∧
        b.gapBefore = some (y.start - x.start)) (batchesOf dm fl archive) ∧
    (∀ b ∈ (batchesOf dm fl archive).head?, b.gapBefore = none) := by
  unfold batchesOf filterEntries
  cases hk : archive.filter (keepEntry dm fl.only fl.skip) with
  | nil => simp [group]
  | cons e es =>
    obtain ⟨h1, h2, h3, b, rest, h4, h5, _⟩ :=
      groupFrom_spec fl.threshold es e none [e] rfl (List.chain'_singleton _)
    simp only [group]
    refine ⟨by simpa using h1, h2, h3, ?_⟩
    intro b0 hb0
    rw [h4] at hb0
    simp at hb0
    subst hb0
    exact h5

/-- C9 at the example scenario of section 8: entries at 0, 100 and 700 ms with
threshold 500 give the batches of the first two and of the third, with a
pacing duration of 600 ms between them. -/
theorem batches_partition_witness :
    batchesOf dmSuffix fl500 archive3
      = [⟨none, [entryAt 0, entryAt 100]⟩, ⟨some 600, [entryAt 700]⟩] ∧
    ((batchesOf dmSuffix fl500 archive3).map Batch.members).flatten
      = archive3.filter (keepEntry dmSuffix fl500.only fl500.skip) ∧
    (∀ b ∈ batchesOf dmSuffix fl500 archive3, b.members ≠ [] ∧
      List.Chain' (fun a c : Entry => c.start - a.start < (fl500.threshold : Int))
        b.members) :=
  ⟨by decide, (batches_partition dmSuffix fl500 archive3).1,
   (batches_partition dmSuffix fl500 archive3).2.1⟩

/-- C10: at every point of every run the input handle and the output handle
are not both open; `har.Convert` and `os.Create` are attempted, and the output
handle is open, only at points where closing the input has already succeeded
and the input handle is released; after an error closing the input neither
`har.Convert` nor `os.Create` is attempted. -/
theorem one_handle_at_a_time {Har : Type} (env : Env Har) (fl : Flags) (arg0 : String)
    (fs : String → Option Bytes) :
    ∀ w ∈ (run env fl arg0 fs).2.points,
      (w.inOpen = false ∨ w.outOpen = false) ∧
      (Step.convert ∈ w.trace.map Prod.fst →
        (Step.closeIn, none) ∈ w.trace ∧ w.inOpen = false) ∧
      (Step.create ∈ w.trace.map Prod.fst →
        (Step.closeIn, none) ∈ w.trace ∧ w.inOpen = false) ∧
      (w.outOpen = true → (Step.closeIn, none) ∈ w.trace ∧ w.inOpen = false) ∧
      (∀ e, (Step.closeIn, some e) ∈ w.trace →
        Step.convert ∉ w.trace.map Prod.fst ∧ Step.create ∉ w.trace.map Prod.fst) := by
  unfold run RunE
  repeat' split
  all_goals simp [Exec.points, Exec.advance, Exec.init, World.init, World.log,
    World.created, World.wrote]

/-- C10 at the final point of an all-succeeding run. -/
theorem one_handle_at_a_time_witness :
    (run envOk flEx "x.har" fsOld).2.cur.inOpen = false ∨
    (run envOk flEx "x.har" fsOld).2.cur.outOpen = false :=
  (one_handle_at_a_time envOk flEx "x.har" fsOld (run envOk flEx "x.har" fsOld).2.cur
    (by simp [Exec.points])).1

end Convert
